import Mathlib

/-!
Shallow embedding of the vector-retrieval subsystem of the
enterprise-qa-system repository (src/database.py, src/utils.py, src/app.py,
src/config.py), together with theorems checking the natural-language
specification against it.

Modelling conventions:
* Python floats are modelled as `ℚ` (the claims under scrutiny are order,
  count and filtering properties, not floating-point rounding properties).
* Python `None`-able parameters are `Option` values.
* The faiss index (an external C++ library) is modelled as a structure
  holding the added vectors and its training flag; the raw nearest-neighbour
  answer produced by `index.search` is supplied by an oracle parameter
  `rawSearch`, since the actual neighbour computation is external to the
  repository.  faiss returns, for a query and a requested `k`, `k` pairs of
  (position, L2 distance), in ascending distance order, padding with
  position `-1` when fewer than `k` true neighbours exist.
* Functions that print log messages return the warnings they emit where a
  claim mentions them (`load`).
-/

namespace EnterpriseQA

/-- A vector embedding: fixed-length numeric vector (floats modelled as ℚ). -/
abbrev Embedding := List ℚ

/-- Model of a Python metadata dict as used by this code base: the code only
ever writes the "id" key (`meta["id"] = new_ids[i]`); all other keys are
carried opaquely in `extra`. -/
structure Meta where
  id : Option Nat
  extra : List (String × String)
deriving DecidableEq, Repr

/-- Model of a faiss index object: the vectors added so far (`ntotal` is
their number) and the `is_trained` flag. The internal geometric structure is
external to the repository and is abstracted away; searches are answered by
an oracle (see `VectorDatabase.search`). -/
structure FaissIndex where
  vectors : List Embedding
  trained : Bool
deriving DecidableEq, Repr

/-- `index.ntotal`. -/
def FaissIndex.ntotal (idx : FaissIndex) : Nat := idx.vectors.length

/-- `VECTOR_DB_CONFIG` from src/config.py. -/
def configDimension : Nat := 768
def configNlist : Nat := 100
def configNprobe : Nat := 10
def configIndexType : String := "ivfflat"

/-- State of `VectorDatabase` (src/database.py). -/
structure VectorDatabase where
  dim : Nat
  nlist : Nat
  index_type : String
  index : Option FaissIndex
  quantizer : Option FaissIndex
  documents : List String
  metadata : List Meta
  document_ids : List Nat
  next_id : Nat
  embeddings_cache : List Embedding
deriving DecidableEq, Repr

/-- Python `x or default` for an optional int argument (`0` is falsy). -/
def orDefaultNat (x : Option Nat) (d : Nat) : Nat :=
  match x with
  | none => d
  | some v => if v = 0 then d else v

/-- Python `x or default` for an optional string argument ("" is falsy). -/
def orDefaultStr (x : Option String) (d : String) : String :=
  match x with
  | none => d
  | some v => if v = "" then d else v

/-- `VectorDatabase.__init__(dim, nlist, index_type)`. -/
def mkVectorDatabase (dim nlist : Option Nat) (index_type : Option String) :
    VectorDatabase :=
  { dim := orDefaultNat dim configDimension
    nlist := orDefaultNat nlist configNlist
    index_type := orDefaultStr index_type configIndexType
    index := none
    quantizer := none
    documents := []
    metadata := []
    document_ids := []
    next_id := 0
    embeddings_cache := [] }

/-- A freshly constructed `VectorDatabase()` with all defaults. -/
def initVectorDatabase : VectorDatabase := mkVectorDatabase none none none

/-- `self.index.ntotal if self.index else 0` (used by `get_stats`). -/
def VectorDatabase.totalVectors (db : VectorDatabase) : Nat :=
  match db.index with
  | none => 0
  | some idx => idx.ntotal

/-- `VectorDatabase.add_documents(documents, metadata_list)` (src/database.py
lines 80-110).  `metadata_list` is `None`-able and Python `if metadata_list:`
treats an empty list the same as `None`. -/
def VectorDatabase.addDocuments (db : VectorDatabase) (documents : List String)
    (metadata_list : Option (List Meta)) : VectorDatabase :=
  if documents.isEmpty then db
  else
    let start_id := db.next_id
    let new_ids := List.range' start_id documents.length
    let metadata' :=
      match metadata_list with
      | some ml =>
          if ml.isEmpty then
            db.metadata ++ new_ids.map (fun doc_id => ⟨some doc_id, []⟩)
          else
            -- for i, meta in enumerate(metadata_list): if i < len(documents):
            --   meta["id"] = new_ids[i]; self.metadata.append(meta)
            db.metadata ++
              (ml.take documents.length).enum.map
                (fun p => { p.2 with id := some (start_id + p.1) })
      | none =>
          db.metadata ++ new_ids.map (fun doc_id => ⟨some doc_id, []⟩)
    { db with
      documents := db.documents ++ documents
      document_ids := db.document_ids ++ new_ids
      metadata := metadata'
      next_id := db.next_id + documents.length }

/-- `VectorDatabase.create_index()`: returns the new index object and the
quantizer (or an error for an unsupported index type).  `flat` and `hnsw`
indexes are born trained; IVF indexes are born untrained. -/
def createIndexObj (index_type : String) :
    Except String (FaissIndex × Option FaissIndex) :=
  if index_type = "flat" then .ok (⟨[], true⟩, none)
  else if index_type = "ivfflat" then .ok (⟨[], false⟩, some ⟨[], true⟩)
  else if index_type = "ivfpq" then .ok (⟨[], false⟩, some ⟨[], true⟩)
  else if index_type = "hnsw" then .ok (⟨[], true⟩, none)
  else .error ("不支持的索引类型: " ++ index_type)

/-- `VectorDatabase.train(embeddings)`: trains the index if untrained (the
clustering itself is internal to faiss; we track the flag). -/
def trainIndex (idx : FaissIndex) (_embeddings : List Embedding) : FaissIndex :=
  if idx.trained then idx else { idx with trained := true }

/-- `VectorDatabase.add_embeddings(embeddings, documents, metadata_list)`
(src/database.py lines 112-133): create the index lazily, train if needed,
add the vectors, extend the cache, then `add_documents`.  A `ValueError`
from `create_index` propagates before any state is mutated. -/
def VectorDatabase.addEmbeddings (db : VectorDatabase)
    (embeddings : List Embedding) (documents : List String)
    (metadata_list : Option (List Meta)) : Except String VectorDatabase :=
  let created : Except String (FaissIndex × Option FaissIndex) :=
    match db.index with
    | some idx => .ok (idx, db.quantizer)
    | none => createIndexObj db.index_type
  match created with
  | .error e => .error e
  | .ok (idx0, qz) =>
      let idx1 := if idx0.trained then idx0 else trainIndex idx0 embeddings
      let idx2 := { idx1 with vectors := idx1.vectors ++ embeddings }
      let db1 := { db with
        index := some idx2
        quantizer := qz
        embeddings_cache := db.embeddings_cache ++ embeddings }
      .ok (db1.addDocuments documents metadata_list)

/-- Type of the oracle answering `self.index.search(query_vector, k)`: for
an index, a query and a requested `k` it returns the list of
(position, distance) pairs.  The faiss contract is that the list has length
exactly `k`, distances ascend, and positions are either valid (`0 ≤ idx <
ntotal`) or the sentinel `-1`. -/
abbrev RawSearch := FaissIndex → Embedding → Nat → List (Int × ℚ)

/-- The filtering loop of `VectorDatabase.search` (src/database.py lines
160-181): skip the `-1` sentinel, apply the similarity threshold
`1/(1+distance) >= threshold` when given, and look each surviving position
up in `documents` (faiss only yields `-1` or valid positions, so the `getD`
default is never used under the faiss contract). -/
def searchKeep (documents : List String) (idx : Int) (d : ℚ)
    (r : List ℚ × List Int × List String) :
    List ℚ × List Int × List String :=
  (d :: r.1, idx :: r.2.1, documents.getD idx.toNat "" :: r.2.2)

/-- The `continue` condition of the threshold filter: a threshold was given
and the candidate's similarity `1/(1+distance)` falls below it. -/
def belowThreshold (threshold : Option ℚ) (d : ℚ) : Prop :=
  match threshold with
  | none => False
  | some t => 1 / (1 + d) < t

instance decBelowThreshold (threshold : Option ℚ) (d : ℚ) :
    Decidable (belowThreshold threshold d) :=
  match threshold with
  | none => isFalse (fun h => h)
  | some t => inferInstanceAs (Decidable (1 / (1 + d) < t))

def searchLoop (documents : List String) (threshold : Option ℚ) :
    List (Int × ℚ) → List ℚ × List Int × List String
  | [] => ([], [], [])
  | (idx, d) :: rest =>
      if idx = -1 then searchLoop documents threshold rest
      else if belowThreshold threshold d then searchLoop documents threshold rest
      else searchKeep documents idx d (searchLoop documents threshold rest)

/-- `VectorDatabase.search(query_vector, k, threshold)` (src/database.py
lines 135-181).  Returns `(distances, indices, documents)`; the raw
neighbour lists come from the `rawSearch` oracle.  The `nprobe` assignment
on IVF indexes only tunes the external search and is not modelled. -/
def VectorDatabase.search (rawSearch : RawSearch) (db : VectorDatabase)
    (query_vector : Embedding) (k : Nat) (threshold : Option ℚ) :
    List ℚ × List Int × List String :=
  match db.index with
  | none => ([], [], [])
  | some idx =>
      if idx.ntotal = 0 then ([], [], [])
      else
        let k' := min k idx.ntotal
        searchLoop db.documents threshold ((rawSearch idx query_vector k').take k')

/-- Render `f"{q:.3f}"` for a non-negative rational: round to three decimal
places and pad the fraction part to three digits.  (Python rounds the
underlying binary float half-to-even; we round half-up — the claims checked
here never sit on a tie.) -/
def formatFixed3 (q : ℚ) : String :=
  let m : Nat := (Int.floor (q * 1000 + 1 / 2)).toNat
  let ip := m / 1000
  let fp := m % 1000
  toString ip ++ "." ++
    (if fp < 10 then "00" else if fp < 100 then "0" else "") ++ toString fp

/-- One formatted context line
`f"[相似度: {similarity:.3f}] {doc}"` with the 500-character document
truncation applied first (src/database.py lines 204-212). -/
def formatContextPart (doc : String) (dist : ℚ) : String :=
  let similarity := 1 / (1 + dist)
  let doc' := if doc.length > 500 then doc.take 500 ++ "..." else doc
  "[相似度: " ++ formatFixed3 similarity ++ "] " ++ doc'

/-- The accumulation loop of `get_context` (src/database.py lines 201-219):
include a part only while `total_length + len(part) <= max_length`; the
first overflowing part stops the loop (`break`). -/
def contextLoop (max_length : Nat) :
    List (String × ℚ) → Nat → List String
  | [], _ => []
  | (doc, dist) :: rest, total_length =>
      let part := formatContextPart doc dist
      if total_length + part.length > max_length then []
      else part :: contextLoop max_length rest (total_length + part.length)

/-- Python `"\n\n".join(parts)`. -/
def joinSep (sep : String) : List String → String
  | [] => ""
  | [p] => p
  | p :: rest => p ++ sep ++ joinSep sep rest

/-- The list of context parts selected by `get_context`. -/
def VectorDatabase.contextParts (rawSearch : RawSearch) (db : VectorDatabase)
    (query_vector : Embedding) (k : Nat) (max_length : Nat) : List String :=
  let r := db.search rawSearch query_vector k none
  contextLoop max_length (r.2.2.zip r.1) 0

/-- `VectorDatabase.get_context(query_vector, k, max_length)`
(src/database.py lines 183-221): searches with no threshold, formats, and
joins with a blank-line separator. -/
def VectorDatabase.getContext (rawSearch : RawSearch) (db : VectorDatabase)
    (query_vector : Embedding) (k : Nat) (max_length : Nat) : String :=
  let r := db.search rawSearch query_vector k none
  if r.2.2.isEmpty then ""
  else joinSep "\n\n" (db.contextParts rawSearch query_vector k max_length)

/-- `get_stats()` result record (src/database.py lines 273-281). -/
structure Stats where
  total_documents : Nat
  total_vectors : Nat
  dimension : Nat
  index_type : String
  nlist : Nat
deriving DecidableEq, Repr

/-- `VectorDatabase.get_stats()`. -/
def VectorDatabase.getStats (db : VectorDatabase) : Stats :=
  { total_documents := db.documents.length
    total_vectors := db.totalVectors
    dimension := db.dim
    index_type := db.index_type
    nlist := db.nlist }

/-- The pickled record written by `save` (src/database.py lines 230-239),
mirroring the persisted dictionary. -/
structure SavedData where
  documents : List String
  metadata : List Meta
  document_ids : List Nat
  next_id : Nat
  dim : Nat
  nlist : Nat
  index_type : String
  embeddings_cache : List Embedding
deriving DecidableEq, Repr

/-- The two files a `save`/`load` pair exchanges under one path prefix:
`<path>.faiss` (present iff the index existed at save time) and
`<path>_data.pkl`. `none` models a missing file. -/
structure DbFiles where
  faiss : Option FaissIndex
  data : Option SavedData
deriving DecidableEq, Repr

/-- `VectorDatabase.save(path)` (src/database.py lines 223-244): writes the
index file only when the index exists, and always writes the data record. -/
def VectorDatabase.save (db : VectorDatabase) : DbFiles :=
  { faiss := db.index
    data := some
      { documents := db.documents
        metadata := db.metadata
        document_ids := db.document_ids
        next_id := db.next_id
        dim := db.dim
        nlist := db.nlist
        index_type := db.index_type
        embeddings_cache := db.embeddings_cache } }

/-- `VectorDatabase.load(path)` (src/database.py lines 246-271): a missing
index file sets the index to `None` with a warning; a missing data file
leaves the stored fields untouched with a warning; each file is processed
independently.  Returns the new state and the warnings printed. -/
def VectorDatabase.load (db : VectorDatabase) (fs : DbFiles) :
    VectorDatabase × List String :=
  let (idx, w1) :=
    match fs.faiss with
    | some i => (some i, ([] : List String))
    | none => (none, ["警告: 索引文件不存在"])
  let db1 := { db with index := idx }
  match fs.data with
  | some d =>
      ({ db1 with
          documents := d.documents
          metadata := d.metadata
          document_ids := d.document_ids
          next_id := d.next_id
          dim := d.dim
          nlist := d.nlist
          index_type := d.index_type
          embeddings_cache := d.embeddings_cache }, w1)
  | none => (db1, w1 ++ ["警告: 数据文件不存在"])

/-- Python truthiness of a `None`-able string (`not x`). -/
def strFalsy (x : Option String) : Bool :=
  match x with
  | none => true
  | some s => s.isEmpty

/-- Python `str.strip()`: drop whitespace from both ends (modelled on the
character list underlying the string). -/
def pyStrip (s : String) : String :=
  ⟨((s.data.dropWhile Char.isWhitespace).reverse.dropWhile
      Char.isWhitespace).reverse⟩

/-- `validate_inputs(context, question, min_length)` (src/utils.py lines
97-111).  Both arguments are modelled as `None`-able strings (the
`isinstance` guard against non-string JSON values is outside the claims). -/
def validateInputs (context question : Option String) (min_length : Nat) :
    List String :=
  let contextErrors :=
    if strFalsy context then ["context必须是非空字符串"]
    else if ((pyStrip (context.getD "")).length < min_length) then
      ["context长度必须至少" ++ toString min_length ++ "个字符"]
    else []
  let questionErrors :=
    if strFalsy question then ["question必须是非空字符串"]
    else if ((pyStrip (question.getD "")).length < min_length) then
      ["question长度必须至少" ++ toString min_length ++ "个字符"]
    else []
  contextErrors ++ questionErrors

/-- Context assembly of the `/query` handler (src/app.py lines 166-174):
caller context (when truthy) first, retrieved documents as a labelled
supplement; with no caller context, the retrieved documents alone, or the
fixed sentinel when retrieval is empty. -/
def combineContext (context : Option String) (retrieved_docs : List String) :
    String :=
  if strFalsy context then
    if retrieved_docs.isEmpty then "暂无相关信息"
    else String.intercalate "\n" retrieved_docs
  else
    (context.getD "") ++
      (if retrieved_docs.isEmpty then ""
       else "\n\n相关补充信息:\n" ++ String.intercalate "\n" retrieved_docs)

/-- The `/query` handler up to context assembly (src/app.py lines 144-174):
validate, retrieve, combine.  The generation call and response serialization
are external.  Returns the combined context or the validation error list. -/
def queryHandle (rawSearch : RawSearch) (db : VectorDatabase)
    (context question : Option String) (query_embedding : Embedding)
    (k : Nat) (threshold : Option ℚ) : Except (List String) String :=
  let validation_errors := validateInputs context question 5
  if validation_errors.isEmpty then
    let r := db.search rawSearch query_embedding k threshold
    .ok (combineContext context r.2.2)
  else .error validation_errors

/-- The query-history bookkeeping of the `/query` handler (src/app.py lines
193-195): append, then drop the oldest record when the length exceeds 100.
The record payload does not influence the policy, so it is a type
parameter. -/
def recordQueryHistory {α : Type} (query_history : List α) (record : α) :
    List α :=
  let h := query_history ++ [record]
  if h.length > 100 then h.drop 1 else h

/-- A mutating call on the document side of a `VectorDatabase`: either a
direct `add_documents` call or an `add_embeddings` call. -/
inductive DbOp
  | addDocs (documents : List String) (metadata_list : Option (List Meta))
  | addEmb (embeddings : List Embedding) (documents : List String)
      (metadata_list : Option (List Meta))

/-- Apply one operation.  A raised `ValueError` (unsupported index type)
aborts `add_embeddings` before any state is mutated, so the database is
returned unchanged in the error case. -/
def applyOp (db : VectorDatabase) : DbOp → VectorDatabase
  | .addDocs documents ml => db.addDocuments documents ml
  | .addEmb embeddings documents ml =>
      match db.addEmbeddings embeddings documents ml with
      | .ok db' => db'
      | .error _ => db

/-- The ID-assignment invariant of the document store: the IDs are exactly
`0, 1, ..., n-1` in order and the counter equals the document count. -/
def dbIdInvariant (db : VectorDatabase) : Prop :=
  db.document_ids = List.range db.documents.length ∧
  db.next_id = db.documents.length

/-- Sum of the lengths of a list of strings. -/
def sumLen (parts : List String) : Nat := (parts.map String.length).sum

/-- The ascending-distance assumption on the raw answers the index returns
for the query examined: the faiss contract hypothesis of the spec. -/
abbrev rawSortedFor (rawSearch : RawSearch) (db : VectorDatabase)
    (query_vector : Embedding) (k : Nat) : Prop :=
  ∀ idx, db.index = some idx →
    List.Sorted (· ≤ ·)
      ((rawSearch idx query_vector (min k idx.ntotal)).map Prod.snd)

/-- An oracle whose answer is always empty (used on empty databases, where
it is never consulted). -/
def oracleEmpty : RawSearch := fun _ _ _ => []

/-- An oracle for a one-vector database: the single vector at distance 1. -/
def oracleOne : RawSearch := fun _ _ _ => [(0, 1)]

/-- A one-document database with a flat index holding one vector. -/
def dbOne : VectorDatabase :=
  { dim := 768, nlist := 100, index_type := "flat",
    index := some ⟨[[1]], true⟩, quantizer := none,
    documents := ["文档一"], metadata := [⟨some 0, []⟩],
    document_ids := [0], next_id := 1, embeddings_cache := [[1]] }

/-- An eight-document database (all documents empty strings) with a flat
index holding eight identical vectors. -/
def dbEight : VectorDatabase :=
  { dim := 768, nlist := 100, index_type := "flat",
    index := some ⟨[[0], [0], [0], [0], [0], [0], [0], [0]], true⟩,
    quantizer := none,
    documents := ["", "", "", "", "", "", "", ""],
    metadata := [⟨some 0, []⟩, ⟨some 1, []⟩, ⟨some 2, []⟩, ⟨some 3, []⟩,
                 ⟨some 4, []⟩, ⟨some 5, []⟩, ⟨some 6, []⟩, ⟨some 7, []⟩],
    document_ids := [0, 1, 2, 3, 4, 5, 6, 7], next_id := 8,
    embeddings_cache := [[0], [0], [0], [0], [0], [0], [0], [0]] }

/-- The exact-search answer of a flat index over eight copies of the same
vector queried with that vector's own direction at L2 distance 1: eight
hits, ascending (here equal) distances. -/
def oracleEight : RawSearch := fun _ _ _ =>
  [(0, 1), (1, 1), (2, 1), (3, 1), (4, 1), (5, 1), (6, 1), (7, 1)]

/-! ## Helper lemmas -/

theorem range_append_range' (n d : Nat) :
    List.range n ++ List.range' n d = List.range (n + d) := by
  rw [List.range_eq_range', List.range_eq_range']
  have h := List.range'_append 0 n d 1
  simpa [Nat.add_comm d n] using h

theorem addDocuments_inv (db : VectorDatabase) (documents : List String)
    (ml : Option (List Meta)) (h : dbIdInvariant db) :
    dbIdInvariant (db.addDocuments documents ml) := by
  obtain ⟨h1, h2⟩ := h
  unfold VectorDatabase.addDocuments
  by_cases hd : documents.isEmpty
  · simpa [hd] using ⟨h1, h2⟩
  · simp only [hd, if_false, Bool.false_eq_true]
    refine ⟨?_, ?_⟩
    · simp only [List.length_append]
      rw [h1, h2, range_append_range']
    · simp only [List.length_append]
      rw [h2]

theorem addEmbeddings_inv (db : VectorDatabase) (embeddings : List Embedding)
    (documents : List String) (ml : Option (List Meta))
    (h : dbIdInvariant db) {db' : VectorDatabase}
    (heq : db.addEmbeddings embeddings documents ml = .ok db') :
    dbIdInvariant db' := by
  unfold VectorDatabase.addEmbeddings at heq
  rcases hcr : (match db.index with
    | some idx => Except.ok (idx, db.quantizer)
    | none => createIndexObj db.index_type) with e | p
  · rw [hcr] at heq
    simp at heq
  · rw [hcr] at heq
    simp only [Except.ok.injEq] at heq
    subst heq
    exact addDocuments_inv _ _ _ ⟨h.1, h.2⟩

theorem applyOp_inv (db : VectorDatabase) (op : DbOp)
    (h : dbIdInvariant db) : dbIdInvariant (applyOp db op) := by
  cases op with
  | addDocs documents ml => exact addDocuments_inv db documents ml h
  | addEmb embeddings documents ml =>
      show dbIdInvariant
        (match db.addEmbeddings embeddings documents ml with
         | .ok db' => db'
         | .error _ => db)
      rcases heq : db.addEmbeddings embeddings documents ml with e | db'
      · exact h
      · exact addEmbeddings_inv db embeddings documents ml h heq

theorem foldl_applyOp_inv (ops : List DbOp) :
    ∀ db : VectorDatabase, dbIdInvariant db →
      dbIdInvariant (ops.foldl applyOp db) := by
  induction ops with
  | nil => intro db h; exact h
  | cons op rest ih =>
      intro db h
      exact ih (applyOp db op) (applyOp_inv db op h)

/-! ## C9 -/

/-- C9: on a freshly constructed `VectorDatabase`, after any sequence of
`add_documents`/`add_embeddings` calls, `document_ids = [0, 1, ..., n-1]`
where `n = len(documents)`, and `next_id = n`; in particular IDs are
`document_ids[i] = i`, strictly increasing and never reused. -/
theorem fresh_db_document_ids (ops : List DbOp) :
    (ops.foldl applyOp initVectorDatabase).document_ids =
      List.range (ops.foldl applyOp initVectorDatabase).documents.length ∧
    (ops.foldl applyOp initVectorDatabase).next_id =
      (ops.foldl applyOp initVectorDatabase).documents.length :=
  foldl_applyOp_inv ops initVectorDatabase ⟨rfl, rfl⟩

/-! ## C10 -/

theorem recordQueryHistory_step {α : Type} (l : List α) (r : α) :
    recordQueryHistory (l.drop (l.length - 100)) r =
      (l ++ [r]).drop ((l ++ [r]).length - 100) := by
  unfold recordQueryHistory
  have hlen : (l.drop (l.length - 100)).length = l.length - (l.length - 100) :=
    List.length_drop _ _
  by_cases hc : l.length ≤ 99
  · have h0 : l.length - 100 = 0 := by omega
    rw [h0, List.drop_zero]
    have hno : ¬ (l ++ [r]).length > 100 := by
      simp only [List.length_append, List.length_cons, List.length_nil]
      omega
    rw [if_neg hno]
    have h1 : (l ++ [r]).length - 100 = 0 := by
      simp only [List.length_append, List.length_cons, List.length_nil]
      omega
    rw [h1, List.drop_zero]
  · have h100 : 100 ≤ l.length := by omega
    have hyes : (l.drop (l.length - 100) ++ [r]).length > 100 := by
      simp only [List.length_append, List.length_cons, List.length_nil, hlen]
      omega
    rw [if_pos hyes,
        @List.drop_append_of_le_length _ (l.drop (l.length - 100)) [r] 1
          (by rw [hlen]; omega),
        List.drop_drop]
    have harith : (l.length - 100) + 1 = (l ++ [r]).length - 100 := by
      simp only [List.length_append, List.length_cons, List.length_nil]
      omega
    rw [harith]
    exact (List.drop_append_of_le_length (by
      simp only [List.length_append, List.length_cons, List.length_nil]
      omega)).symm

theorem foldl_recordQueryHistory {α : Type} (records : List α) :
    ∀ l : List α,
      records.foldl recordQueryHistory (l.drop (l.length - 100)) =
        (l ++ records).drop ((l ++ records).length - 100) := by
  induction records with
  | nil => intro l; simp
  | cons r rest ih =>
      intro l
      rw [List.foldl_cons, recordQueryHistory_step, ih (l ++ [r])]
      simp [List.append_assoc]

/-- C10: starting from the empty history, after any sequence of handled
`/query` requests the `query_history` list holds at most 100 records and is
exactly the chronological suffix of the most recent (at most 100) records.
-/
theorem query_history_bounded {α : Type} (records : List α) :
    (records.foldl recordQueryHistory ([] : List α)).length ≤ 100 ∧
    records.foldl recordQueryHistory ([] : List α) =
      records.drop (records.length - 100) := by
  have h := foldl_recordQueryHistory records ([] : List α)
  simp only [List.drop_nil, List.length_nil, Nat.zero_sub, List.nil_append]
    at h
  refine ⟨?_, h⟩
  rw [h, List.length_drop]
  omega

/-! ## C6 -/

/-- C6: for every query vector, `k` and threshold, `search` on a database
whose index is uninitialized (`None`) or holds zero vectors returns the
empty triple `([], [], [])` (the model is a total function, so no exception
can be raised). -/
theorem search_empty_db (rawSearch : RawSearch) (db : VectorDatabase)
    (q : Embedding) (k : Nat) (t : Option ℚ)
    (h : db.index = none ∨ db.totalVectors = 0) :
    db.search rawSearch q k t = ([], [], []) := by
  rcases hidx : db.index with _ | idx
  · simp [VectorDatabase.search, hidx]
  · have hz : idx.ntotal = 0 := by
      rcases h with h | h
      · rw [hidx] at h; exact absurd h (by simp)
      · unfold VectorDatabase.totalVectors at h
        rw [hidx] at h
        exact h
    simp [VectorDatabase.search, hidx, hz]

theorem search_empty_db_witness :
    (initVectorDatabase.index = none ∨ initVectorDatabase.totalVectors = 0) ∧
    initVectorDatabase.search oracleEmpty [] 3 none = ([], [], []) :=
  ⟨Or.inl rfl,
   search_empty_db oracleEmpty initVectorDatabase [] 3 none (Or.inl rfl)⟩

/-! ## C3 -/

/-- C3: `save` followed by `load` on a newly constructed `VectorDatabase`
restores `get_stats()`, documents, metadata, document_ids, next_id, the
embeddings cache, and the search results for any fixed query vector, `k`
and threshold, exactly. -/
theorem save_load_roundtrip (db : VectorDatabase) (rawSearch : RawSearch)
    (q : Embedding) (k : Nat) (t : Option ℚ) :
    (initVectorDatabase.load db.save).1.getStats = db.getStats ∧
    (initVectorDatabase.load db.save).1.documents = db.documents ∧
    (initVectorDatabase.load db.save).1.metadata = db.metadata ∧
    (initVectorDatabase.load db.save).1.document_ids = db.document_ids ∧
    (initVectorDatabase.load db.save).1.next_id = db.next_id ∧
    (initVectorDatabase.load db.save).1.embeddings_cache =
      db.embeddings_cache ∧
    (initVectorDatabase.load db.save).1.search rawSearch q k t =
      db.search rawSearch q k t := by
  obtain ⟨dim, nlist, it, index, qz, docs, md, ids, nid, cache⟩ := db
  cases index <;> exact ⟨rfl, rfl, rfl, rfl, rfl, rfl, rfl⟩

/-! ## C8 -/

/-- C8 (amended): `load` with a missing index file sets the index to `None`
and logs a warning; `load` with a missing data file leaves the document
store unchanged (hence empty when loading into a freshly constructed
database) and logs a warning; the two files are processed independently, so
one may be missing without aborting the load of the other. -/
theorem load_missing_files (db : VectorDatabase) (fs : DbFiles) :
    (fs.faiss = none →
      (db.load fs).1.index = none ∧ "警告: 索引文件不存在" ∈ (db.load fs).2) ∧
    (fs.data = none →
      (db.load fs).1.documents = db.documents ∧
        "警告: 数据文件不存在" ∈ (db.load fs).2) ∧
    (∀ d, fs.data = some d → (db.load fs).1.documents = d.documents) ∧
    (∀ i, fs.faiss = some i → (db.load fs).1.index = some i) := by
  obtain ⟨faiss, data⟩ := fs
  cases faiss <;> cases data <;> simp [VectorDatabase.load]

theorem load_missing_files_witness :
    (initVectorDatabase.load ⟨none, none⟩).1.index = none ∧
    "警告: 索引文件不存在" ∈ (initVectorDatabase.load ⟨none, none⟩).2 ∧
    (initVectorDatabase.load ⟨none, none⟩).1.documents =
      initVectorDatabase.documents ∧
    "警告: 数据文件不存在" ∈ (initVectorDatabase.load ⟨none, none⟩).2 := by
  obtain ⟨h1, h2, _, _⟩ := load_missing_files initVectorDatabase ⟨none, none⟩
  obtain ⟨ha, hb⟩ := h1 rfl
  obtain ⟨hc, hd⟩ := h2 rfl
  exact ⟨ha, hb, hc, hd⟩

/-- C8 counterexample to the claim as stated: a database that already holds
a document and then loads from a path whose data file is missing keeps its
documents — the document store is left unchanged, not empty. -/
theorem load_missing_data_cex :
    ((initVectorDatabase.addDocuments ["示例文档内容"] none).load
        ⟨none, none⟩).1.documents = ["示例文档内容"] ∧
    ("示例文档内容" :: ([] : List String)) ≠ [] :=
  ⟨rfl, by decide⟩

/-! ## C1 -/

/-- C1 counterexample to the claim as stated: adding two documents with one
supplied metadata entry yields a metadata list of length 1, not 2 — missing
positions are NOT padded with default `{id}` metadata, so the metadata
sequence does not keep the documents' length. -/
theorem addDocuments_padding_cex :
    (initVectorDatabase.addDocuments ["a", "b"]
        (some [⟨none, []⟩])).metadata.length = 1 ∧
    (initVectorDatabase.addDocuments ["a", "b"]
        (some [⟨none, []⟩])).documents.length = 2 ∧
    (1 : Nat) ≠ 2 :=
  ⟨rfl, rfl, by decide⟩

/-- C1 (amended): with a non-empty documents list and a supplied non-empty
metadata list, exactly `min len(documents) len(metadata)` supplied entries
are appended — no default padding for positions beyond the metadata list,
entries beyond the number of documents ignored — and each appended entry's
`id` is the id assigned to the document at the same position. -/
theorem addDocuments_short_metadata (db : VectorDatabase)
    (documents : List String) (ml : List Meta)
    (h1 : documents ≠ []) (h2 : ml ≠ []) :
    (db.addDocuments documents (some ml)).metadata.length =
      db.metadata.length + min documents.length ml.length ∧
    ∀ i, i < min documents.length ml.length →
      ((db.addDocuments documents (some ml)).metadata.getD
          (db.metadata.length + i) ⟨none, []⟩).id = some (db.next_id + i) := by
  have hd : documents.isEmpty = false := by
    cases documents with
    | nil => exact absurd rfl h1
    | cons a l => rfl
  have hm : ml.isEmpty = false := by
    cases ml with
    | nil => exact absurd rfl h2
    | cons a l => rfl
  have hmeta : (db.addDocuments documents (some ml)).metadata =
      db.metadata ++ (ml.take documents.length).enum.map
        (fun p => { p.2 with id := some (db.next_id + p.1) }) := by
    unfold VectorDatabase.addDocuments
    simp [hd, hm]
  have hlen : ((ml.take documents.length).enum.map
      (fun p => { p.2 with id := some (db.next_id + p.1) })).length =
      min documents.length ml.length := by
    rw [List.length_map, List.enum_length, List.length_take]
  constructor
  · rw [hmeta, List.length_append, hlen]
  · intro i hi
    rw [hmeta, List.getD_append_right _ _ _ _ (Nat.le_add_right _ _),
        Nat.add_sub_cancel_left]
    have hi' : i < ((ml.take documents.length).enum.map
        (fun p => { p.2 with id := some (db.next_id + p.1) })).length := by
      rw [hlen]; exact hi
    rw [List.getD_eq_getElem _ _ hi', List.getElem_map, List.getElem_enum]

theorem addDocuments_short_metadata_witness :
    (["a", "b", "c"] : List String) ≠ [] ∧
    ([⟨none, [("type", "x")]⟩, ⟨none, []⟩] : List Meta) ≠ [] ∧
    ((initVectorDatabase.addDocuments ["a", "b", "c"]
        (some [⟨none, [("type", "x")]⟩, ⟨none, []⟩])).metadata.length =
      initVectorDatabase.metadata.length + min 3 2 ∧
    ∀ i, i < min 3 2 →
      ((initVectorDatabase.addDocuments ["a", "b", "c"]
          (some [⟨none, [("type", "x")]⟩, ⟨none, []⟩])).metadata.getD
          (initVectorDatabase.metadata.length + i) ⟨none, []⟩).id =
        some (initVectorDatabase.next_id + i)) :=
  ⟨by decide, by decide,
   addDocuments_short_metadata initVectorDatabase ["a", "b", "c"]
     [⟨none, [("type", "x")]⟩, ⟨none, []⟩] (by decide) (by decide)⟩

/-! ## C2 -/

theorem validateInputs_none_context (question : Option String) (m : Nat) :
    validateInputs none question m =
      "context必须是非空字符串" ::
        (if strFalsy question then ["question必须是非空字符串"]
         else if (pyStrip (question.getD "")).length < m then
           ["question长度必须至少" ++ toString m ++ "个字符"]
         else []) := by
  unfold validateInputs strFalsy
  simp

/-- C2 counterexample to the claim as stated: a request whose question
passes validation (length ≥ 5 after trimming) but whose context is absent
fails input validation — the error list is non-empty and the handler
returns the validation-error response rather than proceeding to
retrieval. -/
theorem query_absent_context_cex :
    validateInputs none (some "公司的带薪年假政策是什么") 5 =
      ["context必须是非空字符串"] ∧
    5 ≤ (pyStrip "公司的带薪年假政策是什么").length ∧
    queryHandle oracleEmpty initVectorDatabase none
        (some "公司的带薪年假政策是什么") [] 3 none =
      Except.error ["context必须是非空字符串"] :=
  ⟨rfl, by decide, rfl⟩

/-- C2 (amended): context is not optional for validation — for every
request whose context is absent, regardless of the question,
`validate_inputs` returns a non-empty error list and the `/query` handler
answers with the validation error; the retrieval-only context branch (with
its "暂无相关信息" sentinel) is never reached for an absent context. -/
theorem query_absent_context_rejected (rawSearch : RawSearch)
    (db : VectorDatabase) (question : Option String)
    (query_embedding : Embedding) (k : Nat) (t : Option ℚ) :
    validateInputs none question 5 ≠ [] ∧
    queryHandle rawSearch db none question query_embedding k t =
      Except.error (validateInputs none question 5) := by
  have hr := validateInputs_none_context question 5
  refine ⟨by rw [hr]; exact List.cons_ne_nil _ _, ?_⟩
  unfold queryHandle
  rw [hr]
  simp

/-! ## Search lemmas, C4 and C5 -/

theorem searchLoop_fst_sublist (documents : List String)
    (threshold : Option ℚ) (raw : List (Int × ℚ)) :
    (searchLoop documents threshold raw).1.Sublist (raw.map Prod.snd) := by
  induction raw with
  | nil => simp [searchLoop]
  | cons p rest ih =>
      obtain ⟨idx, d⟩ := p
      rw [List.map_cons]
      simp only [searchLoop]
      by_cases hidx : idx = -1
      · rw [if_pos hidx]
        exact ih.cons _
      · rw [if_neg hidx]
        by_cases hb : belowThreshold threshold d
        · rw [if_pos hb]
          exact ih.cons _
        · rw [if_neg hb]
          exact ih.cons₂ _

theorem searchLoop_lengths (documents : List String) (threshold : Option ℚ)
    (raw : List (Int × ℚ)) :
    (searchLoop documents threshold raw).2.1.length =
      (searchLoop documents threshold raw).1.length ∧
    (searchLoop documents threshold raw).2.2.length =
      (searchLoop documents threshold raw).1.length := by
  induction raw with
  | nil => simp [searchLoop]
  | cons p rest ih =>
      obtain ⟨idx, d⟩ := p
      simp only [searchLoop]
      by_cases hidx : idx = -1
      · rw [if_pos hidx]
        exact ih
      · rw [if_neg hidx]
        by_cases hb : belowThreshold threshold d
        · rw [if_pos hb]
          exact ih
        · rw [if_neg hb]
          simp [searchKeep, ih.1, ih.2]

theorem searchLoop_threshold_le (documents : List String) (t : ℚ)
    (raw : List (Int × ℚ)) :
    ∀ d ∈ (searchLoop documents (some t) raw).1, t ≤ 1 / (1 + d) := by
  induction raw with
  | nil => simp [searchLoop]
  | cons p rest ih =>
      obtain ⟨idx, d⟩ := p
      simp only [searchLoop]
      by_cases hidx : idx = -1
      · rw [if_pos hidx]
        exact ih
      · rw [if_neg hidx]
        by_cases hb : belowThreshold (some t) d
        · rw [if_pos hb]
          exact ih
        · rw [if_neg hb]
          simp only [searchKeep]
          intro d' hd'
          rcases List.mem_cons.mp hd' with h | h
          · rw [h]
            exact not_lt.mp hb
          · exact ih d' h

theorem searchLoop_mono (documents : List String) {t1 t2 : ℚ} (h : t1 ≤ t2)
    (raw : List (Int × ℚ)) :
    (searchLoop documents (some t2) raw).1.length ≤
      (searchLoop documents (some t1) raw).1.length := by
  induction raw with
  | nil => simp [searchLoop]
  | cons p rest ih =>
      obtain ⟨idx, d⟩ := p
      simp only [searchLoop]
      by_cases hidx : idx = -1
      · rw [if_pos hidx, if_pos hidx]
        exact ih
      · rw [if_neg hidx, if_neg hidx]
        by_cases h1 : belowThreshold (some t1) d
        · have h2 : belowThreshold (some t2) d := lt_of_lt_of_le h1 h
          rw [if_pos h1, if_pos h2]
          exact ih
        · rw [if_neg h1]
          by_cases h2 : belowThreshold (some t2) d
          · rw [if_pos h2]
            simp only [searchKeep, List.length_cons]
            omega
          · rw [if_neg h2]
            simp only [searchKeep, List.length_cons]
            omega

theorem search_unfold (rawSearch : RawSearch) (db : VectorDatabase)
    (q : Embedding) (k : Nat) (t : Option ℚ) {idx : FaissIndex}
    (hidx : db.index = some idx) (hz : idx.ntotal ≠ 0) :
    db.search rawSearch q k t =
      searchLoop db.documents t
        ((rawSearch idx q (min k idx.ntotal)).take (min k idx.ntotal)) := by
  unfold VectorDatabase.search
  rw [hidx]
  simp [hz]

theorem search_results_length (rawSearch : RawSearch) (db : VectorDatabase)
    (q : Embedding) (k : Nat) (t : Option ℚ) :
    (db.search rawSearch q k t).1.length ≤ min k db.totalVectors ∧
    (db.search rawSearch q k t).2.1.length =
      (db.search rawSearch q k t).1.length ∧
    (db.search rawSearch q k t).2.2.length =
      (db.search rawSearch q k t).1.length := by
  rcases hidx : db.index with _ | idx
  · simp [VectorDatabase.search, hidx]
  · have htv : db.totalVectors = idx.ntotal := by
      simp [VectorDatabase.totalVectors, hidx]
    by_cases hz : idx.ntotal = 0
    · simp [VectorDatabase.search, hidx, hz]
    · rw [search_unfold rawSearch db q k t hidx hz, htv]
      refine ⟨?_, (searchLoop_lengths _ _ _).1, (searchLoop_lengths _ _ _).2⟩
      calc (searchLoop db.documents t
              ((rawSearch idx q (min k idx.ntotal)).take
                (min k idx.ntotal))).1.length
          ≤ (((rawSearch idx q (min k idx.ntotal)).take
                (min k idx.ntotal)).map Prod.snd).length :=
            (searchLoop_fst_sublist _ _ _).length_le
        _ ≤ min k idx.ntotal := by
            rw [List.length_map, List.length_take]
            exact inf_le_left

/-- C4: `search(q, k)` returns at most `min(k, total_vectors)` results (in
each of the three returned components), and — assuming the underlying index
returns its raw neighbours in ascending-distance order — the returned
distances are non-decreasing. -/
theorem search_count_and_order (rawSearch : RawSearch) (db : VectorDatabase)
    (q : Embedding) (k : Nat) (t : Option ℚ)
    (h : rawSortedFor rawSearch db q k) :
    ((db.search rawSearch q k t).1.length ≤ min k db.totalVectors ∧
     (db.search rawSearch q k t).2.1.length ≤ min k db.totalVectors ∧
     (db.search rawSearch q k t).2.2.length ≤ min k db.totalVectors) ∧
    List.Sorted (· ≤ ·) (db.search rawSearch q k t).1 := by
  obtain ⟨hlen, h21, h22⟩ := search_results_length rawSearch db q k t
  refine ⟨⟨hlen, h21 ▸ hlen, h22 ▸ hlen⟩, ?_⟩
  rcases hidx : db.index with _ | idx
  · simp [VectorDatabase.search, hidx]
  · by_cases hz : idx.ntotal = 0
    · simp [VectorDatabase.search, hidx, hz]
    · rw [search_unfold rawSearch db q k t hidx hz]
      have hsub : (searchLoop db.documents t
          ((rawSearch idx q (min k idx.ntotal)).take
            (min k idx.ntotal))).1.Sublist
          ((rawSearch idx q (min k idx.ntotal)).map Prod.snd) :=
        (searchLoop_fst_sublist _ _ _).trans
          ((List.take_sublist _ _).map Prod.snd)
      exact List.Pairwise.sublist hsub (h idx hidx)

theorem search_count_and_order_witness :
    ((dbOne.search oracleOne [1] 1 none).1.length ≤
        min 1 dbOne.totalVectors ∧
     (dbOne.search oracleOne [1] 1 none).2.1.length ≤
        min 1 dbOne.totalVectors ∧
     (dbOne.search oracleOne [1] 1 none).2.2.length ≤
        min 1 dbOne.totalVectors) ∧
    List.Sorted (· ≤ ·) (dbOne.search oracleOne [1] 1 none).1 :=
  search_count_and_order oracleOne dbOne [1] 1 none
    (fun idx hx => by
      rw [show dbOne.index = some (⟨[[1]], true⟩ : FaissIndex) from rfl] at hx
      injection hx with hx
      subst hx
      exact List.sorted_singleton _)

/-- C5: every candidate returned by `search(q, k, threshold=t)` satisfies
`1/(1+distance) >= t`, and for the same query and `k`, raising the
threshold never increases the number of returned results. -/
theorem search_threshold_filter_mono (rawSearch : RawSearch)
    (db : VectorDatabase) (q : Embedding) (k : Nat) (t1 t2 : ℚ)
    (h : t1 ≤ t2) :
    (∀ d ∈ (db.search rawSearch q k (some t1)).1, t1 ≤ 1 / (1 + d)) ∧
    (db.search rawSearch q k (some t2)).1.length ≤
      (db.search rawSearch q k (some t1)).1.length := by
  rcases hidx : db.index with _ | idx
  · simp [VectorDatabase.search, hidx]
  · by_cases hz : idx.ntotal = 0
    · simp [VectorDatabase.search, hidx, hz]
    · rw [search_unfold rawSearch db q k (some t1) hidx hz,
          search_unfold rawSearch db q k (some t2) hidx hz]
      exact ⟨searchLoop_threshold_le _ _ _, searchLoop_mono _ h _⟩

theorem search_threshold_filter_mono_witness :
    (0 : ℚ) ≤ 1 ∧
    ((∀ d ∈ (dbOne.search oracleOne [1] 1 (some 0)).1,
        (0 : ℚ) ≤ 1 / (1 + d)) ∧
     (dbOne.search oracleOne [1] 1 (some 1)).1.length ≤
       (dbOne.search oracleOne [1] 1 (some 0)).1.length) :=
  ⟨zero_le_one,
   search_threshold_filter_mono oracleOne dbOne [1] 1 0 1 zero_le_one⟩

/-! ## C7 -/

theorem contextLoop_sum (M : Nat) (pairs : List (String × ℚ)) :
    ∀ total : Nat, total ≤ M →
      total + sumLen (contextLoop M pairs total) ≤ M := by
  induction pairs with
  | nil =>
      intro total h
      simpa [contextLoop, sumLen] using h
  | cons p rest ih =>
      intro total h
      obtain ⟨doc, dist⟩ := p
      simp only [contextLoop]
      by_cases hc : total + (formatContextPart doc dist).length > M
      · rw [if_pos hc]
        simpa [sumLen] using h
      · rw [if_neg hc]
        have h' := ih (total + (formatContextPart doc dist).length)
          (not_lt.mp hc)
        simp only [sumLen, List.map_cons, List.sum_cons] at h' ⊢
        omega

theorem contextLoop_length_le (M : Nat) (pairs : List (String × ℚ)) :
    ∀ total : Nat, (contextLoop M pairs total).length ≤ pairs.length := by
  induction pairs with
  | nil => intro total; simp [contextLoop]
  | cons p rest ih =>
      intro total
      obtain ⟨doc, dist⟩ := p
      simp only [contextLoop]
      by_cases hc : total + (formatContextPart doc dist).length > M
      · rw [if_pos hc]
        simp
      · rw [if_neg hc]
        simpa using Nat.succ_le_succ (ih _)

theorem joinSep_length (sep : String) (parts : List String) :
    (joinSep sep parts).length =
      sumLen parts + sep.length * (parts.length - 1) := by
  induction parts with
  | nil => simp [joinSep, sumLen]
  | cons p rest ih =>
      cases rest with
      | nil => simp [joinSep, sumLen]
      | cons q t =>
          show (p ++ sep ++ joinSep sep (q :: t)).length = _
          rw [String.length_append, String.length_append, ih]
          simp only [sumLen, List.map_cons, List.sum_cons, List.length_cons,
            Nat.add_sub_cancel, Nat.mul_succ]
          omega

/-- C7 (amended): the summed length of the included formatted lines never
exceeds `max_length`; the returned string additionally contains one
two-character blank-line separator between consecutive included lines, so
its total length is at most `max_length + 2*(number of included lines - 1)`
— and at most `min(k, total_vectors)` lines are included.  (The claim's
bound `max_length + length of one formatted line` fails because the
separators are not counted by the loop; see the counterexample.) -/
theorem getContext_length_bound (rawSearch : RawSearch)
    (db : VectorDatabase) (q : Embedding) (k : Nat) (M : Nat) :
    sumLen (db.contextParts rawSearch q k M) ≤ M ∧
    (db.contextParts rawSearch q k M).length ≤ min k db.totalVectors ∧
    (db.getContext rawSearch q k M).length ≤
      M + 2 * ((db.contextParts rawSearch q k M).length - 1) := by
  have hsum : sumLen (db.contextParts rawSearch q k M) ≤ M := by
    unfold VectorDatabase.contextParts
    simpa using contextLoop_sum M
      ((db.search rawSearch q k none).2.2.zip
        (db.search rawSearch q k none).1) 0 (Nat.zero_le M)
  have hcount : (db.contextParts rawSearch q k M).length ≤
      min k db.totalVectors := by
    unfold VectorDatabase.contextParts
    calc (contextLoop M ((db.search rawSearch q k none).2.2.zip
            (db.search rawSearch q k none).1) 0).length
        ≤ ((db.search rawSearch q k none).2.2.zip
            (db.search rawSearch q k none).1).length :=
          contextLoop_length_le _ _ _
      _ ≤ (db.search rawSearch q k none).2.2.length := by
          rw [List.length_zip]
          exact inf_le_left
      _ = (db.search rawSearch q k none).1.length :=
          (search_results_length rawSearch db q k none).2.2
      _ ≤ min k db.totalVectors :=
          (search_results_length rawSearch db q k none).1
  refine ⟨hsum, hcount, ?_⟩
  unfold VectorDatabase.getContext
  by_cases he : (db.search rawSearch q k none).2.2.isEmpty
  · simp [he]
  · simp only [he, Bool.false_eq_true, if_false]
    rw [joinSep_length, show ("\n\n".length = 2) from rfl]
    omega

theorem floor_half_thousand :
    ⌊((1 : ℚ) / (1 + 1)) * 1000 + 1 / 2⌋ = (500 : ℤ) := by
  rw [Int.floor_eq_iff]
  norm_num

theorem formatContextPart_empty_one :
    formatContextPart "" 1 = "[相似度: 0.500] " := by
  simp only [formatContextPart, formatFixed3, floor_half_thousand]
  decide

theorem searchEight_eval :
    dbEight.search oracleEight [0] 8 none =
      ([1, 1, 1, 1, 1, 1, 1, 1], [0, 1, 2, 3, 4, 5, 6, 7],
       ["", "", "", "", "", "", "", ""]) := rfl

/-- C7 counterexample to the claim as stated: eight empty documents at
distance 1 each format to a 13-character line; with `max_length = 104` all
eight lines are included (their lengths sum to exactly 104), but the seven
blank-line separators make the output 118 characters long —
exceeding `max_length` plus the length of one formatted line (104 + 13 =
117). -/
theorem getContext_length_cex :
    (dbEight.getContext oracleEight [0] 8 104).length = 118 ∧
    104 + (formatContextPart "" 1).length < 118 := by
  constructor
  · unfold VectorDatabase.getContext VectorDatabase.contextParts
    rw [searchEight_eval]
    simp only [contextLoop, formatContextPart_empty_one]
    decide
  · rw [formatContextPart_empty_one]
    decide

end EnterpriseQA
